import Mathlib

/-!
# Shallow embedding of the MuMu instance-cycling scheduler

This file embeds the scheduler-relevant parts of `src/main.py` (the
`mumu_automator` repository) as executable Lean definitions and proves
properties of them.

Embedding map (source → Lean):

* `get_vm_info` / nested `query_vm` (main.py lines 175-228): `query_vm`,
  `gatherVmInfo`, `get_vm_info`.  A raw reply of one `MuMuManager info`
  subprocess call is a `QueryOutcome`; a parsed JSON object is a `VmDoc`
  whose `Option` fields model present/absent keys (`dict.get(k, d)` is
  `Option.getD`, `dict[k]` raises `KeyError` when the key is absent, which
  we model as `Except.error ()`).
* `control_instances` (lines 275-305): `controlAux` / `control_instances`,
  with an oracle `ok : Nat → Bool` telling whether the `p`-th sequential
  `subprocess.run` control call of the invocation succeeds.
* the management loop `run_management` (lines 1002-1176):
  - queue draining (lines 1024-1040): `QueueMsg`, `processMsg`;
  - the cycle-boundary test (line 1052): `cycleDue`;
  - the batch pipeline (lines 1056-1146): `computeBatch`, `anyReady`,
    `allErrored`, `verifyAux`/`verifyBatch`, `reportedRange`, `runPipeline`;
  - one iteration of the outer loop: `tick`.  Timestamps are `Nat`; the
    90-second verification window polled every 5 seconds is `windowPolls = 18`
    poll rounds; `polls j` is the snapshot returned by the `j`-th
    `get_vm_info` call inside the verification loop.
* the UI-side `stop_cycle` handler (lines 653-693): `stopCycleMsg` (the
  message it enqueues) and `stop_cycle_stops` (the stop calls it issues).

The scheduler state `SchedState` collects the loop-local variables
`current_index`, `last_routine_run`, `is_retry_attempt`,
`last_routine_range` of `run_management`.
-/

namespace Mumu

/-- One entry of the worker-state snapshot, as built by `query_vm`
(main.py lines 202-210).  `status` is the string `"running"` or
`"stopped"`, reflecting `is_process_started`. -/
structure VmInfo where
  index : Nat
  name : String
  status : String
  isMain : Bool
  androidStarted : Bool
  hasError : Bool
  errorMessage : String
  deriving DecidableEq

/-- The fields of a parsed MuMuManager JSON reply that `query_vm` reads
(main.py lines 191-210).  A `none` field models a key absent from the JSON
object: `vm_data.get(k, d)` reads it with default `d`, while `vm_data[k]`
raises `KeyError`. -/
structure VmDoc where
  error_code : Option Int
  index : Option Nat
  name : Option String
  is_main : Option Bool
  is_android_started : Option Bool
  is_process_started : Option Bool
  launch_err_code : Option Int
  launch_err_msg : Option String
  deriving DecidableEq

/-- Possible raw outcomes of the `MuMuManager info -v i` subprocess call made
by `query_vm` for one index (main.py lines 183-212): process failure
(`CalledProcessError`), timeout (`TimeoutExpired`), stdout that is not valid
JSON (`JSONDecodeError`), valid JSON that is not an object, or a JSON
object. -/
inductive QueryOutcome where
  | procError
  | timeout
  | badJson
  | nonObject
  | doc (d : VmDoc)
  deriving DecidableEq

/-- `query_vm` (main.py lines 182-212).  The `try` block catches exactly
`CalledProcessError`, `JSONDecodeError` and `TimeoutExpired`, turning them
into `None` (here `Except.ok none`).  A reply parsing to a non-object makes
`vm_data.get` raise `AttributeError`, and an object whose `error_code` is 0
but which lacks the `index` or `name` key makes `vm_data["index"]` /
`vm_data["name"]` raise `KeyError`; neither is caught, modelled as
`Except.error ()`. -/
def query_vm (o : QueryOutcome) : Except Unit (Option VmInfo) :=
  match o with
  | .procError => .ok none
  | .timeout => .ok none
  | .badJson => .ok none
  | .nonObject => .error ()
  | .doc d =>
      if d.error_code.getD (-1) = 0 then
        match d.index, d.name with
        | some i, some nm =>
            .ok (some
              { index := i,
                name := nm,
                status := if d.is_process_started.getD false then "running" else "stopped",
                isMain := d.is_main.getD false,
                androidStarted := d.is_android_started.getD false,
                hasError := (d.launch_err_code.getD 0 != 0) || (d.launch_err_msg.getD "" != ""),
                errorMessage := d.launch_err_msg.getD "" })
        | _, _ => .error ()
      else .ok none

/-- Collecting phase of `get_vm_info` (main.py lines 217-222): the results
of the per-index queries are gathered, `None` results are dropped, and an
exception raised by any `future.result()` propagates out. -/
def gatherVmInfo : List QueryOutcome → Except Unit (List VmInfo)
  | [] => .ok []
  | o :: rest =>
      match query_vm o with
      | .error e => .error e
      | .ok none => gatherVmInfo rest
      | .ok (some v) =>
          match gatherVmInfo rest with
          | .error e => .error e
          | .ok l => .ok (v :: l)

/-- `get_vm_info` (main.py lines 175-228): gather the per-index query
results, then sort by index (line 224). -/
def get_vm_info (outs : List QueryOutcome) : Except Unit (List VmInfo) :=
  match gatherVmInfo outs with
  | .error e => .error e
  | .ok l => .ok (l.insertionSort fun a b => a.index ≤ b.index)

/-- Shape condition under which `query_vm` raises no uncaught exception: the
reply is not a non-object JSON value, and if it is an object with
`error_code` 0 then the `index` and `name` keys are present. -/
def queryWellFormed : QueryOutcome → Bool
  | .nonObject => false
  | .doc d =>
      if d.error_code.getD (-1) = 0 then d.index.isSome && d.name.isSome else true
  | _ => true

/-- Loop body of `control_instances` (main.py lines 287-303), issuing one
control subprocess call per index, sequentially.  `ok p` tells whether the
`p`-th call of this invocation succeeds (a `CalledProcessError` or
`TimeoutExpired` is caught per index). -/
def controlAux (ok : Nat → Bool) : Nat → List Nat → List Nat × List Nat
  | _, [] => ([], [])
  | pos, idx :: rest =>
      let r := controlAux ok (pos + 1) rest
      if ok pos then (idx :: r.1, r.2) else (r.1, idx :: r.2)

/-- `control_instances` (main.py lines 275-305): empty input returns
`([], [])` without issuing any call; otherwise indices are processed one at
a time and split into the successful and the failed list. -/
def control_instances (ok : Nat → Bool) (vmIndices : List Nat) : List Nat × List Nat :=
  if vmIndices.isEmpty then ([], []) else controlAux ok 0 vmIndices

/-- The sequence of control subprocess calls issued by `control_instances`:
none on the empty early return (main.py lines 280-282), otherwise exactly one
per input index, in input order (line 287-296). -/
def controlIssued (vmIndices : List Nat) : List Nat :=
  if vmIndices.isEmpty then [] else vmIndices

/-- The loop-local state of `run_management` (main.py lines 1004-1010):
`current_index` is the rotation cursor into the pool, `last_routine_run` the
timestamp of the last successful batch start, `is_retry_attempt` the
retry-owed flag, `last_routine_range` the reported 1-based ordinal range of
the current batch. -/
structure SchedState where
  currentIndex : Nat
  lastRoutineRun : Option Nat
  isRetryAttempt : Bool
  lastRoutineRange : Option (Nat × Nat)
  deriving DecidableEq

/-- Cursor advance after a cycle (main.py lines 1115 and 1139):
`current_index = (current_index + batch_size) % len(active_vm_indices)`. -/
def advanceCursor (n b c : Nat) : Nat := (c + b) % n

/-- Cursor value after `k` consecutive successful cycles, each advancing by
`advanceCursor` (main.py line 1115). -/
def cycleSucceed (n b : Nat) : Nat → Nat → Nat
  | 0, c => c
  | k + 1, c => cycleSucceed n b k (advanceCursor n b c)

/-- Batch-size guard of `run_management` (main.py lines 1064-1070): a
non-positive batch size falls back to 1. -/
def effBatch (bRaw : Nat) : Nat := if bRaw = 0 then 1 else bRaw

/-- Batch computation (main.py lines 1072-1075): the `b` consecutive pool
members starting at cursor `c`, wrapping modulo the pool length. -/
def computeBatch (pool : List Nat) (c b : Nat) : List Nat :=
  (List.range b).map fun i => pool.getD ((c + i) % pool.length) 0

/-- Python `min` of a nonempty list (main.py line 1118); the `[]` case is
unreachable there since batches are nonempty. -/
def pyMin : List Nat → Nat
  | [] => 0
  | x :: xs => xs.foldl min x

/-- Python `max` of a nonempty list (main.py line 1119). -/
def pyMax : List Nat → Nat
  | [] => 0
  | x :: xs => xs.foldl max x

/-- The ordinal range reported for a started batch (main.py lines
1118-1120): 1 plus the minimum and 1 plus the maximum of the pool positions
(`active_vm_indices.index(idx)`) of the batch members. -/
def reportedRange (pool toStart : List Nat) : Nat × Nat :=
  (pyMin (toStart.map fun idx => pool.indexOf idx) + 1,
   pyMax (toStart.map fun idx => pool.indexOf idx) + 1)

/-- Modelled from the spec: the ordinal range formula the specification
states for a batch, `(rotationCursor+1, ((rotationCursor+batchSize-1) mod
|WorkerPool|)+1)`.  Stated here only to compare with `reportedRange`, the
range the source actually computes. -/
def specRangeFormula (n c b : Nat) : Nat × Nat := (c + 1, ((c + b - 1) % n) + 1)

/-- A worker-state snapshot: the list produced by one `get_vm_info` call. -/
abbrev Snapshot := List VmInfo

/-- Success test of one verification poll (main.py lines 1090-1094): at
least one snapshot entry is a batch member with `is_android_started`. -/
def anyReady (snap : Snapshot) (batch : List Nat) : Bool :=
  snap.any fun vm => vm.androidStarted && batch.contains vm.index

/-- Fail-fast test of one verification poll (main.py lines 1100-1104): the
snapshot entries that are batch members with `has_error` number exactly the
batch size. -/
def allErrored (snap : Snapshot) (batch : List Nat) : Bool :=
  (snap.filter fun vm => batch.contains vm.index && vm.hasError).length == batch.length

/-- Number of poll rounds in the verification window (main.py lines
1086-1109): a 90-second wall-clock window re-polled every 5 seconds gives 18
rounds. -/
def windowPolls : Nat := 18

/-- Verification loop (main.py lines 1086-1109): poll, declare success on
`anyReady`, fail fast on `allErrored`, otherwise sleep and re-poll until the
window is exhausted.  Returns the success flag and the number of polls
performed. -/
def verifyAux (batch : List Nat) (polls : Nat → Snapshot) : Nat → Nat → Bool × Nat
  | _, 0 => (false, 0)
  | start, fuel + 1 =>
      if anyReady (polls start) batch then (true, 1)
      else if allErrored (polls start) batch then (false, 1)
      else
        let r := verifyAux batch polls (start + 1) fuel
        (r.1, r.2 + 1)

/-- The full verification window starting at poll 0 with `windowPolls`
rounds of fuel. -/
def verifyBatch (batch : List Nat) (polls : Nat → Snapshot) : Bool × Nat :=
  verifyAux batch polls 0 windowPolls

/-- Externally visible control effects of the scheduler: a start call for a
worker, a stop call for a worker, and one snapshot poll. -/
inductive Action where
  | startCmd (idx : Nat)
  | stopCmd (idx : Nat)
  | pollSnapshot
  deriving DecidableEq

/-- Indices of the process-running non-primary workers of a snapshot, the
filter used before every stop-all (main.py lines 679, 1057, 1131). -/
def runningNonMain (snap : Snapshot) : List Nat :=
  (snap.filter fun vm => vm.status == "running" && !vm.isMain).map fun vm => vm.index

/-- External inputs consumed by one run of the batch pipeline: the snapshot
taken before stopping the previous batch (main.py line 1056), the stream of
verification-poll snapshots (line 1087), the value of `time.time()` read
after a successful verification (line 1114), and the snapshot taken for the
post-failure stop-all (line 1130). -/
structure PipelineIn where
  preSnap : Snapshot
  polls : Nat → Snapshot
  tEnd : Nat
  failSnap : Snapshot

/-- The batch pipeline of `run_management` (main.py lines 1056-1146), run
when the cycle boundary fires: stop running non-main workers, compute the
batch from the cursor, start it, verify it, and update the cycling state:
on success advance the cursor, stamp `last_routine_run` with the
post-verification clock and record the reported range; on failure stop
lingering workers and either owe a retry (cursor unchanged) or, if the
retry was already owed, advance the cursor and clear the flag.  Also
returns the list of control actions issued. -/
def runPipeline (pool : List Nat) (bRaw : Nat) (pin : PipelineIn) (s : SchedState) :
    SchedState × List Action :=
  let b := effBatch bRaw
  let preStops := (runningNonMain pin.preSnap).map Action.stopCmd
  let batch := computeBatch pool s.currentIndex b
  let starts := batch.map Action.startCmd
  let vres := verifyBatch batch pin.polls
  let pollActs := List.replicate vres.2 Action.pollSnapshot
  if vres.1 then
    ({ currentIndex := (s.currentIndex + b) % pool.length,
       lastRoutineRun := some pin.tEnd,
       isRetryAttempt := false,
       lastRoutineRange := some (reportedRange pool batch) },
     preStops ++ starts ++ pollActs)
  else
    let failStops := (runningNonMain pin.failSnap).map Action.stopCmd
    (if s.isRetryAttempt then
       { s with currentIndex := (s.currentIndex + b) % pool.length, isRetryAttempt := false }
     else
       { s with isRetryAttempt := true },
     preStops ++ starts ++ pollActs ++ failStops)

/-- One message drained from the update queue by `run_management` (main.py
lines 1024-1040), restricted to the keys that loop reads: truthiness of
`reset_index`, presence of `last_routine_run` with value `None`, an optional
`cycle_interval`, and truthiness of `reset_cycle`. -/
structure QueueMsg where
  resetIndex : Bool
  lastRoutineRunNone : Bool
  cycleInterval : Option Nat
  resetCycle : Bool
  deriving DecidableEq

/-- The management-loop state the queue messages act on: the scheduler state
plus `current_cycle_interval` (main.py line 1006). -/
structure MgmtState where
  sched : SchedState
  interval : Nat
  deriving DecidableEq

/-- Processing of one queue message (main.py lines 1026-1040), in source
order: `reset_index` zeroes the cursor; a `None` `last_routine_run` clears
the timestamp and range; `cycle_interval` updates the interval;
`reset_cycle` clears the timestamp and range and zeroes the cursor.  No key
touches `is_retry_attempt`. -/
def processMsg (ms : MgmtState) (m : QueueMsg) : MgmtState :=
  let s0 := ms.sched
  let s1 := if m.resetIndex then { s0 with currentIndex := 0 } else s0
  let s2 :=
    if m.lastRoutineRunNone then
      { s1 with lastRoutineRun := none, lastRoutineRange := none }
    else s1
  let itv :=
    match m.cycleInterval with
    | some v => v
    | none => ms.interval
  let s3 :=
    if m.resetCycle then
      { s2 with lastRoutineRun := none, lastRoutineRange := none, currentIndex := 0 }
    else s2
  { sched := s3, interval := itv }

/-- Cycle-boundary condition (main.py line 1052): `last_routine_run is None
or now - last_routine_run >= current_cycle_interval`. -/
def cycleDue (lastRun : Option Nat) (now interval : Nat) : Bool :=
  match lastRun with
  | none => true
  | some t => decide (interval ≤ now - t)

/-- One iteration of the outer `while` loop of `run_management` (main.py
lines 1013-1150), restricted to its state-relevant steps: drain the queue,
then, if `is_cycling` holds and the cycle boundary fires, run the batch
pipeline.  `isCycling` is the value of the shared flag read at the gate
(line 1052); the pipeline body contains no further read of it. -/
def tick (pool : List Nat) (bRaw : Nat) (isCycling : Bool) (now : Nat)
    (msgs : List QueueMsg) (pin : PipelineIn) (ms : MgmtState) : MgmtState × List Action :=
  let ms1 := msgs.foldl processMsg ms
  if isCycling && cycleDue ms1.sched.lastRoutineRun now ms1.interval then
    let r := runPipeline pool bRaw pin ms1.sched
    ({ sched := r.1, interval := ms1.interval }, r.2)
  else (ms1, [])

/-- The queue message enqueued by the UI `stop_cycle` handler (main.py lines
688-692): `last_routine_run: None`, `last_routine_range: None`,
`reset_cycle: True`. -/
def stopCycleMsg : QueueMsg :=
  { resetIndex := false, lastRoutineRunNone := true, cycleInterval := none, resetCycle := true }

/-- The stop calls `stop_cycle` issues (main.py lines 679-682): one stop per
process-running non-main worker of a fresh snapshot. -/
def stop_cycle_stops (snap : Snapshot) : List Action :=
  (runningNonMain snap).map Action.stopCmd

/-- A worker that is neither ready nor errored, for concrete runs. -/
def idleVm : VmInfo :=
  { index := 10, name := "ROM_IDLE", status := "stopped", isMain := false,
    androidStarted := false, hasError := false, errorMessage := "" }

/-- A worker that reports readiness, for concrete runs. -/
def readyVm : VmInfo :=
  { index := 10, name := "ROM_OK", status := "running", isMain := false,
    androidStarted := true, hasError := false, errorMessage := "" }

/-- A worker that reports a launch error and no readiness. -/
def errVm : VmInfo :=
  { index := 10, name := "ROM_ERR", status := "running", isMain := false,
    androidStarted := false, hasError := true, errorMessage := "boom" }

/-- A worker that simultaneously reports a launch error and readiness
(`launch_err_msg` nonempty while `is_android_started` is true). -/
def bothVm : VmInfo :=
  { index := 10, name := "ROM_BOTH", status := "running", isMain := false,
    androidStarted := true, hasError := true, errorMessage := "boom" }

/-- Pipeline inputs whose every verification poll sees only `idleVm`. -/
def pinIdle : PipelineIn :=
  { preSnap := [], polls := fun _ => [idleVm], tEnd := 0, failSnap := [] }

/-- Pipeline inputs whose every verification poll sees `readyVm`. -/
def pinReady : PipelineIn :=
  { preSnap := [], polls := fun _ => [readyVm], tEnd := 42, failSnap := [] }

/-- A freshly reset scheduler state. -/
def sFresh : SchedState :=
  { currentIndex := 0, lastRoutineRun := none, isRetryAttempt := false,
    lastRoutineRange := none }

/-- A fresh management state with the default 60-second interval. -/
def msFresh : MgmtState := { sched := sFresh, interval := 60 }

/-- A management state in which a retry is owed. -/
def msRetry : MgmtState :=
  { sched := { currentIndex := 1, lastRoutineRun := some 5, isRetryAttempt := true,
               lastRoutineRange := some (2, 2) },
    interval := 60 }

/-- A parsed reply that is a JSON object with `error_code` 0 but without the
`index` and `name` keys. -/
def missingIndexDoc : VmDoc :=
  { error_code := some 0, index := none, name := none, is_main := none,
    is_android_started := none, is_process_started := none,
    launch_err_code := none, launch_err_msg := none }

/-! ## Helper lemmas -/

/-- Closed form of the cursor after `k` successful cycles. -/
theorem cycleSucceed_formula (n b : Nat) :
    ∀ k c, c < n → cycleSucceed n b k c = (c + k * b) % n := by
  intro k
  induction k with
  | zero => intro c hc; simp [cycleSucceed, Nat.mod_eq_of_lt hc]
  | succ k ih =>
      intro c hc
      have hn : 0 < n := by omega
      have step : cycleSucceed n b (k + 1) c = cycleSucceed n b k ((c + b) % n) := rfl
      rw [step, ih _ (Nat.mod_lt _ hn), Nat.mod_add_mod]
      congr 1
      ring

/-! ## Claims -/

/-- C3 (amended): for every pool size `n` and batch size `b` with
`1 ≤ b ≤ n`, starting from any cursor `c < n`, the cursor returns to its
starting value after `n / gcd(n, b)` consecutive successful cycles (each
advancing by `(c + b) % n`, main.py line 1115); the spec's count
`ceil(n/b)` closes the rotation only when `b` divides `n`. -/
theorem rotation_closes (n b c : Nat) (hb : 0 < b) (hbn : b ≤ n) (hc : c < n) :
    cycleSucceed n b (n / Nat.gcd n b) c = c := by
  have hn : 0 < n := by omega
  have hg : 0 < Nat.gcd n b := Nat.gcd_pos_of_pos_left b hn
  obtain ⟨u, hu⟩ := Nat.gcd_dvd_left n b
  obtain ⟨v, hv⟩ := Nat.gcd_dvd_right n b
  have h1 : n / Nat.gcd n b = u :=
    Nat.div_eq_of_eq_mul_left hg (hu.trans (Nat.mul_comm _ _))
  have h2 : n / Nat.gcd n b * b = v * n := by
    rw [h1]
    calc u * b = u * (Nat.gcd n b * v) := by rw [← hv]
    _ = v * (Nat.gcd n b * u) := by ring
    _ = v * n := by rw [← hu]
  rw [cycleSucceed_formula n b _ c hc, h2, Nat.add_mul_mod_self_right, Nat.mod_eq_of_lt hc]

/-- C3 counterexample: for pool size 5 and batch size 2, `ceil(5/2) = 3`
successful cycles starting from cursor 0 leave the cursor at 1, not at its
starting value 0, so the claimed count `ceil(n/b)` does not close the
rotation. -/
theorem rotation_ceil_cex : cycleSucceed 5 2 ((5 + 2 - 1) / 2) 0 ≠ 0 := by decide

/-- Witness for `rotation_closes` at `n = 5`, `b = 2`, `c = 0`: the rotation
closes after `5 / gcd(5,2) = 5` cycles. -/
theorem rotation_closes_witness :
    0 < 2 ∧ 2 ≤ 5 ∧ 0 < 5 ∧ cycleSucceed 5 2 (5 / Nat.gcd 5 2) 0 = 0 :=
  ⟨by decide, by decide, by decide, rotation_closes 5 2 0 (by decide) (by decide) (by decide)⟩

/-- C4 (amended): processing the message enqueued by `stop_cycle` resets the
rotation cursor to 0, `last_routine_run` to none and the reported range to
none, and keeps the interval; the retry flag `is_retry_attempt` is left
unchanged (no queue key touches it, main.py lines 1024-1040).  `stop_cycle`
additionally issues one stop call for exactly every process-running
non-main worker of the snapshot (main.py lines 679-682). -/
theorem stop_resets_state (ms : MgmtState) (snap : Snapshot) (a : Action) :
    (processMsg ms stopCycleMsg).sched.currentIndex = 0
  ∧ (processMsg ms stopCycleMsg).sched.lastRoutineRun = none
  ∧ (processMsg ms stopCycleMsg).sched.lastRoutineRange = none
  ∧ (processMsg ms stopCycleMsg).sched.isRetryAttempt = ms.sched.isRetryAttempt
  ∧ (processMsg ms stopCycleMsg).interval = ms.interval
  ∧ (a ∈ stop_cycle_stops snap ↔
      ∃ vm ∈ snap, vm.status = "running" ∧ vm.isMain = false ∧ a = Action.stopCmd vm.index) := by
  refine ⟨rfl, rfl, rfl, rfl, rfl, ?_⟩
  simp only [stop_cycle_stops, runningNonMain, List.map_map, List.mem_map, List.mem_filter,
    Function.comp, Bool.and_eq_true, beq_iff_eq, Bool.not_eq_true']
  constructor
  · rintro ⟨vm, ⟨hmem, hst, hmain⟩, rfl⟩
    exact ⟨vm, hmem, hst, hmain, rfl⟩
  · rintro ⟨vm, hmem, hst, hmain, rfl⟩
    exact ⟨vm, ⟨hmem, hst, hmain⟩, rfl⟩

/-- C4 counterexample: in a state where a retry is owed, processing the
`stop_cycle` message leaves the retry flag set — it is not reset to false
as the claim states. -/
theorem stop_resets_cex : (processMsg msRetry stopCycleMsg).sched.isRetryAttempt ≠ false := by
  decide

/-- C7 (amended): once Stop is observed — `is_cycling` is false at the
per-tick gate (main.py line 1052) — the tick issues no control actions and
runs no pipeline phase, only draining the queue.  The gate is the only
point of the loop body that reads the flag, so a Stop arriving after it
does not abandon the in-flight pipeline (see `stop_gate_cex`). -/
theorem stop_gate (pool : List Nat) (bRaw now : Nat) (msgs : List QueueMsg)
    (pin : PipelineIn) (ms : MgmtState) :
    tick pool bRaw false now msgs pin ms = (msgs.foldl processMsg ms, []) := by
  simp [tick]

/-- C7 counterexample: a tick whose gate saw `is_cycling = true` and whose
batch never becomes ready runs the entire verification window — one start
call followed by all `windowPolls = 18` poll rounds (90 seconds) — inside
the single tick.  The tick takes no further stop input (the source reads
`is_cycling` only at the gate, main.py line 1052), so a Stop arriving
during verification cannot abandon it at the next tick boundary; the next
boundary only occurs after the window elapses. -/
theorem stop_gate_cex :
    (tick [10, 11] 1 true 0 [] pinIdle msFresh).2
      = Action.startCmd 10 :: List.replicate windowPolls Action.pollSnapshot
  ∧ 1 < windowPolls :=
  ⟨by decide, by decide⟩

/-- C6 counterexample: a snapshot in which the single batch member reports
`has_error = true` and also `is_android_started = true`: every batch member
has errored at the very first poll, yet verification resolves as success
(the ready check at main.py line 1094 precedes the all-errored check at
line 1104), not as failure. -/
theorem fail_fast_cex :
    allErrored [bothVm] [10] = true
  ∧ verifyBatch [10] (fun _ => [bothVm]) = (true, 1) :=
  ⟨by decide, by decide⟩

/-- C9 counterexample: a query whose reply is the valid JSON object
`{"error_code": 0}` — malformed data in the sense that the mandatory
`index`/`name` keys are missing — makes `vm_data["index"]` raise an
uncaught `KeyError` which propagates out of the poller, rather than the
worker being silently excluded from the snapshot. -/
theorem poller_cex :
    get_vm_info [QueryOutcome.doc missingIndexDoc] = Except.error () := rfl

/-- C2: when the verification of the computed batch fails (the window
elapses with no ready member, or the all-errored fail-fast fires), the
pipeline flips the retry flag (main.py lines 1136-1146): if the failed
attempt was not a retry, the flag becomes true and the cursor is unchanged,
so the identical batch is recomputed for the reattempt; if it was already
the retry, the cursor advances by the batch size modulo the pool size and
the flag is cleared.  `last_routine_run` is unchanged in both cases. -/
theorem retry_policy (pool : List Nat) (bRaw : Nat) (pin : PipelineIn) (s : SchedState)
    (hfail : (verifyBatch (computeBatch pool s.currentIndex (effBatch bRaw)) pin.polls).1
      = false) :
    ((runPipeline pool bRaw pin s).1.isRetryAttempt = !s.isRetryAttempt)
  ∧ (s.isRetryAttempt = false →
      (runPipeline pool bRaw pin s).1.currentIndex = s.currentIndex
      ∧ computeBatch pool (runPipeline pool bRaw pin s).1.currentIndex (effBatch bRaw)
          = computeBatch pool s.currentIndex (effBatch bRaw))
  ∧ (s.isRetryAttempt = true →
      (runPipeline pool bRaw pin s).1.currentIndex
        = (s.currentIndex + effBatch bRaw) % pool.length)
  ∧ (runPipeline pool bRaw pin s).1.lastRoutineRun = s.lastRoutineRun := by
  cases hs : s.isRetryAttempt <;> simp [runPipeline, hfail, hs]

/-- Witness for `retry_policy`: a fresh state, pool `[10, 11]`, batch size
1, and polls that never show readiness or errors; verification fails and
the retry policy applies. -/
theorem retry_policy_witness :
    ((verifyBatch (computeBatch [10, 11] sFresh.currentIndex (effBatch 1)) pinIdle.polls).1
      = false)
  ∧ (((runPipeline [10, 11] 1 pinIdle sFresh).1.isRetryAttempt = !sFresh.isRetryAttempt)
  ∧ (sFresh.isRetryAttempt = false →
      (runPipeline [10, 11] 1 pinIdle sFresh).1.currentIndex = sFresh.currentIndex
      ∧ computeBatch [10, 11] (runPipeline [10, 11] 1 pinIdle sFresh).1.currentIndex (effBatch 1)
          = computeBatch [10, 11] sFresh.currentIndex (effBatch 1))
  ∧ (sFresh.isRetryAttempt = true →
      (runPipeline [10, 11] 1 pinIdle sFresh).1.currentIndex
        = (sFresh.currentIndex + effBatch 1) % [10, 11].length)
  ∧ (runPipeline [10, 11] 1 pinIdle sFresh).1.lastRoutineRun = sFresh.lastRoutineRun) :=
  ⟨by decide, retry_policy [10, 11] 1 pinIdle sFresh (by decide)⟩

/-- If the first `k` polls trigger neither the ready check nor the
fail-fast check and poll `k` shows a ready member, the verification loop
stops right there with success after `k + 1` polls. -/
theorem verifyAux_first_ready (batch : List Nat) (polls : Nat → Snapshot) :
    ∀ k start fuel, k < fuel →
    (∀ j, j < k → anyReady (polls (start + j)) batch = false
        ∧ allErrored (polls (start + j)) batch = false) →
    anyReady (polls (start + k)) batch = true →
    verifyAux batch polls start fuel = (true, k + 1) := by
  intro k
  induction k with
  | zero =>
      intro start fuel hf _ hr
      match fuel, hf with
      | f + 1, _ =>
          rw [Nat.add_zero] at hr
          simp [verifyAux, hr]
  | succ k ih =>
      intro start fuel hf hq hr
      match fuel, hf with
      | f + 1, hf =>
          have h0 := hq 0 (Nat.succ_pos k)
          rw [Nat.add_zero] at h0
          have hrec := ih (start + 1) f (by omega)
            (fun j hj => by
              have e : start + 1 + j = start + (j + 1) := by omega
              rw [e]
              exact hq (j + 1) (by omega))
            (by
              have e : start + 1 + k = start + (k + 1) := by omega
              rw [e]
              exact hr)
          simp [verifyAux, h0.1, h0.2, hrec]

/-- If the first `k` polls trigger neither check and poll `k` shows every
batch member errored while none is ready, the loop stops right there with
failure after `k + 1` polls. -/
theorem verifyAux_first_errored (batch : List Nat) (polls : Nat → Snapshot) :
    ∀ k start fuel, k < fuel →
    (∀ j, j < k → anyReady (polls (start + j)) batch = false
        ∧ allErrored (polls (start + j)) batch = false) →
    anyReady (polls (start + k)) batch = false →
    allErrored (polls (start + k)) batch = true →
    verifyAux batch polls start fuel = (false, k + 1) := by
  intro k
  induction k with
  | zero =>
      intro start fuel hf _ hnr herr
      match fuel, hf with
      | f + 1, _ =>
          rw [Nat.add_zero] at hnr herr
          simp [verifyAux, hnr, herr]
  | succ k ih =>
      intro start fuel hf hq hnr herr
      match fuel, hf with
      | f + 1, hf =>
          have h0 := hq 0 (Nat.succ_pos k)
          rw [Nat.add_zero] at h0
          have hrec := ih (start + 1) f (by omega)
            (fun j hj => by
              have e : start + 1 + j = start + (j + 1) := by omega
              rw [e]
              exact hq (j + 1) (by omega))
            (by
              have e : start + 1 + k = start + (k + 1) := by omega
              rw [e]
              exact hnr)
            (by
              have e : start + 1 + k = start + (k + 1) := by omega
              rw [e]
              exact herr)
          simp [verifyAux, h0.1, h0.2, hrec]

/-- C5: verification succeeds at the first poll showing at least one ready
batch member — unanimity is not required and earlier polls showed neither
readiness nor the all-errored signal — consuming exactly `k + 1` of the
window's polls; the pipeline then stamps `last_routine_run` with the
post-verification clock `pin.tEnd` (main.py line 1114, a fresh
`time.time()` read after the verification loop, not the time the starts
were issued), advances the cursor by the batch size modulo the pool size
(line 1115) and clears the retry flag (line 1116). -/
theorem success_policy (pool : List Nat) (bRaw : Nat) (pin : PipelineIn) (s : SchedState)
    (k : Nat) (hk : k < windowPolls)
    (hquiet : ∀ j, j < k →
        anyReady (pin.polls j) (computeBatch pool s.currentIndex (effBatch bRaw)) = false
      ∧ allErrored (pin.polls j) (computeBatch pool s.currentIndex (effBatch bRaw)) = false)
    (hready : anyReady (pin.polls k) (computeBatch pool s.currentIndex (effBatch bRaw))
      = true) :
    verifyBatch (computeBatch pool s.currentIndex (effBatch bRaw)) pin.polls = (true, k + 1)
  ∧ (runPipeline pool bRaw pin s).1.lastRoutineRun = some pin.tEnd
  ∧ (runPipeline pool bRaw pin s).1.currentIndex
      = (s.currentIndex + effBatch bRaw) % pool.length
  ∧ (runPipeline pool bRaw pin s).1.isRetryAttempt = false := by
  have hv : verifyBatch (computeBatch pool s.currentIndex (effBatch bRaw)) pin.polls
      = (true, k + 1) := by
    apply verifyAux_first_ready _ _ k 0 windowPolls hk
    · intro j hj
      rw [Nat.zero_add]
      exact hquiet j hj
    · rw [Nat.zero_add]
      exact hready
  refine ⟨hv, ?_, ?_, ?_⟩ <;> simp [runPipeline, hv]

/-- Witness for `success_policy`: fresh state, pool `[10, 11]`, batch size
1, the single batch member ready at the very first poll. -/
theorem success_policy_witness :
    0 < windowPolls
  ∧ (anyReady (pinReady.polls 0) (computeBatch [10, 11] sFresh.currentIndex (effBatch 1))
      = true)
  ∧ (verifyBatch (computeBatch [10, 11] sFresh.currentIndex (effBatch 1)) pinReady.polls
      = (true, 0 + 1)
    ∧ (runPipeline [10, 11] 1 pinReady sFresh).1.lastRoutineRun = some pinReady.tEnd
    ∧ (runPipeline [10, 11] 1 pinReady sFresh).1.currentIndex
        = (sFresh.currentIndex + effBatch 1) % [10, 11].length
    ∧ (runPipeline [10, 11] 1 pinReady sFresh).1.isRetryAttempt = false) :=
  ⟨by decide, by decide,
    success_policy [10, 11] 1 pinReady sFresh 0 (by decide)
      (fun j hj => absurd hj (Nat.not_lt_zero j)) (by decide)⟩

/-- C6 (amended): if during the window a poll shows every batch member with
`has_error = true` while no member is ready (the ready check of main.py
line 1094 runs first and would otherwise win), verification resolves as
failure immediately at that poll, consuming only `k + 1` of the
`windowPolls` rounds instead of waiting for the window to elapse. -/
theorem fail_fast_policy (batch : List Nat) (polls : Nat → Snapshot) (k : Nat)
    (hk : k < windowPolls)
    (hquiet : ∀ j, j < k → anyReady (polls j) batch = false
        ∧ allErrored (polls j) batch = false)
    (hnready : anyReady (polls k) batch = false)
    (herr : allErrored (polls k) batch = true) :
    verifyBatch batch polls = (false, k + 1) ∧ k + 1 ≤ windowPolls := by
  refine ⟨?_, by omega⟩
  apply verifyAux_first_errored _ _ k 0 windowPolls hk
  · intro j hj
    rw [Nat.zero_add]
    exact hquiet j hj
  · rw [Nat.zero_add]
    exact hnready
  · rw [Nat.zero_add]
    exact herr

/-- Witness for `fail_fast_policy`: batch `[10]`, the member errored and
not ready at the very first poll, so only 1 of the 18 rounds is used. -/
theorem fail_fast_policy_witness :
    0 < windowPolls
  ∧ anyReady [errVm] [10] = false
  ∧ allErrored [errVm] [10] = true
  ∧ (verifyBatch [10] (fun _ => [errVm]) = (false, 0 + 1) ∧ 0 + 1 ≤ windowPolls) :=
  ⟨by decide, by decide, by decide,
    fail_fast_policy [10] (fun _ => [errVm]) 0 (by decide)
      (fun j hj => absurd hj (Nat.not_lt_zero j)) (by decide) (by decide)⟩

/-- `control_instances` is the loop body started at position 0; the empty
early return coincides with the loop on the empty list. -/
theorem control_instances_eq_aux (ok : Nat → Bool) (vmIndices : List Nat) :
    control_instances ok vmIndices = controlAux ok 0 vmIndices := by
  cases vmIndices with
  | nil => rfl
  | cons x xs => rfl

/-- Per-value count bookkeeping of the control loop: each occurrence of a
value in the input ends up in exactly one of the two output lists. -/
theorem controlAux_count (ok : Nat → Bool) (idxs : List Nat) (v : Nat) :
    ∀ pos, (controlAux ok pos idxs).1.count v + (controlAux ok pos idxs).2.count v
      = idxs.count v := by
  induction idxs with
  | nil => intro pos; simp [controlAux]
  | cons x xs ih =>
      intro pos
      have H := ih (pos + 1)
      by_cases h : ok pos <;> simp [controlAux, h, List.count_cons] <;> omega

/-- The control loop distributes over list append: the processing of the
second part only depends on its own outcomes, so failures in the first part
never abort it. -/
theorem controlAux_append (ok : Nat → Bool) (xs ys : List Nat) :
    ∀ pos, controlAux ok pos (xs ++ ys)
      = ((controlAux ok pos xs).1 ++ (controlAux ok (pos + xs.length) ys).1,
         (controlAux ok pos xs).2 ++ (controlAux ok (pos + xs.length) ys).2) := by
  induction xs with
  | nil => intro pos; simp [controlAux]
  | cons x xs ih =>
      intro pos
      have e : pos + 1 + xs.length = pos + (xs.length + 1) := by omega
      have ih1 := ih (pos + 1)
      rw [e] at ih1
      by_cases h : ok pos <;> simp [controlAux, h, ih1]

/-- Both output lists of the control loop are order-preserving sublists of
the input. -/
theorem controlAux_sublist (ok : Nat → Bool) (idxs : List Nat) :
    ∀ pos, List.Sublist (controlAux ok pos idxs).1 idxs
      ∧ List.Sublist (controlAux ok pos idxs).2 idxs := by
  induction idxs with
  | nil => intro pos; simp [controlAux]
  | cons x xs ih =>
      intro pos
      obtain ⟨h1, h2⟩ := ih (pos + 1)
      by_cases h : ok pos <;> simp only [controlAux, h, if_true, if_false]
      · exact ⟨h1.cons₂ x, h2.cons x⟩
      · exact ⟨h1.cons x, h2.cons₂ x⟩

/-- C8: for every index list and every pattern of per-call outcomes, each
occurrence of an input index lands in exactly one of the returned
succeeded/failed lists, every input value appears in one of them, and the
processing of any suffix of the input is exactly the processing it would
receive on its own (with the outcome positions shifted) — so a failure or
timeout among the earlier indices never aborts the remaining ones
(main.py lines 287-303: one `subprocess.run` per index with its own
timeout, exceptions caught per index). -/
theorem control_instances_no_abort (ok : Nat → Bool) (xs ys : List Nat) (v : Nat) :
    ((control_instances ok (xs ++ ys)).1.count v
        + (control_instances ok (xs ++ ys)).2.count v = (xs ++ ys).count v)
  ∧ (v ∈ xs ++ ys ↔
      v ∈ (control_instances ok (xs ++ ys)).1 ∨ v ∈ (control_instances ok (xs ++ ys)).2)
  ∧ (control_instances ok (xs ++ ys)).1
      = (controlAux ok 0 xs).1 ++ (controlAux ok xs.length ys).1
  ∧ (control_instances ok (xs ++ ys)).2
      = (controlAux ok 0 xs).2 ++ (controlAux ok xs.length ys).2 := by
  have hc := controlAux_count ok (xs ++ ys) v 0
  have ha := controlAux_append ok xs ys 0
  rw [Nat.zero_add] at ha
  refine ⟨?_, ?_, ?_, ?_⟩
  · rw [control_instances_eq_aux]
    exact hc
  · rw [control_instances_eq_aux]
    constructor
    · intro hv
      by_contra hno
      push_neg at hno
      have h1 : (controlAux ok 0 (xs ++ ys)).1.count v = 0 :=
        List.count_eq_zero.mpr hno.1
      have h2 : (controlAux ok 0 (xs ++ ys)).2.count v = 0 :=
        List.count_eq_zero.mpr hno.2
      have : (xs ++ ys).count v = 0 := by omega
      exact (List.count_eq_zero.mp this) hv
    · intro hv
      rcases hv with hv | hv
      · exact (controlAux_sublist ok (xs ++ ys) 0).1.mem hv
      · exact (controlAux_sublist ok (xs ++ ys) 0).2.mem hv
  · rw [control_instances_eq_aux, ha]
  · rw [control_instances_eq_aux, ha]

/-- C10: calling the control operation on the empty list returns two empty
lists and issues no control command; in general exactly one command is
issued per input index in input order (`controlIssued`), the succeeded and
failed lists are order-preserving sublists of the input, and their counts
partition the input occurrence-by-occurrence. -/
theorem control_instances_partition (ok : Nat → Bool) (idxs : List Nat) (v : Nat) :
    control_instances ok [] = ([], [])
  ∧ controlIssued [] = []
  ∧ controlIssued idxs = idxs
  ∧ List.Sublist (control_instances ok idxs).1 idxs
  ∧ List.Sublist (control_instances ok idxs).2 idxs
  ∧ (control_instances ok idxs).1.count v + (control_instances ok idxs).2.count v
      = idxs.count v := by
  refine ⟨rfl, rfl, ?_, ?_, ?_, ?_⟩
  · cases idxs with
    | nil => rfl
    | cons x xs => rfl
  · rw [control_instances_eq_aux]
    exact (controlAux_sublist ok idxs 0).1
  · rw [control_instances_eq_aux]
    exact (controlAux_sublist ok idxs 0).2
  · rw [control_instances_eq_aux]
    exact controlAux_count ok idxs v 0

/-- A well-shaped query outcome never raises an uncaught exception. -/
theorem query_vm_ok (o : QueryOutcome) (h : queryWellFormed o = true) :
    ∃ r, query_vm o = Except.ok r := by
  cases o with
  | procError => exact ⟨none, rfl⟩
  | timeout => exact ⟨none, rfl⟩
  | badJson => exact ⟨none, rfl⟩
  | nonObject => simp [queryWellFormed] at h
  | doc d =>
      by_cases hec : d.error_code.getD (-1) = 0
      · simp only [queryWellFormed, if_pos hec, Bool.and_eq_true, Option.isSome_iff_exists] at h
        obtain ⟨⟨i, hi⟩, nm, hnm⟩ := h
        refine ⟨some
          { index := i,
            name := nm,
            status := if d.is_process_started.getD false then "running" else "stopped",
            isMain := d.is_main.getD false,
            androidStarted := d.is_android_started.getD false,
            hasError := (d.launch_err_code.getD 0 != 0) || (d.launch_err_msg.getD "" != ""),
            errorMessage := d.launch_err_msg.getD "" }, ?_⟩
        simp [query_vm, hec, hi, hnm]
      · exact ⟨none, by simp [query_vm, hec]⟩

/-- On well-shaped outcomes the gathering phase returns exactly the workers
whose queries produced an entry. -/
theorem gatherVmInfo_ok (outs : List QueryOutcome)
    (h : ∀ o ∈ outs, queryWellFormed o = true) :
    ∃ l, gatherVmInfo outs = Except.ok l
      ∧ ∀ v, v ∈ l ↔ ∃ o ∈ outs, query_vm o = Except.ok (some v) := by
  induction outs with
  | nil => exact ⟨[], rfl, by simp⟩
  | cons o rest ih =>
      obtain ⟨l, hl, hmem⟩ := ih fun o' ho' => h o' (List.mem_cons_of_mem _ ho')
      obtain ⟨r, hr⟩ := query_vm_ok o (h o (List.mem_cons_self _ _))
      cases r with
      | none =>
          refine ⟨l, by simp [gatherVmInfo, hr, hl], fun v => ?_⟩
          rw [hmem v]
          constructor
          · rintro ⟨o', ho', hq⟩
            exact ⟨o', List.mem_cons_of_mem _ ho', hq⟩
          · rintro ⟨o', ho', hq⟩
            rcases List.mem_cons.mp ho' with rfl | ho'
            · rw [hr] at hq
              simp at hq
            · exact ⟨o', ho', hq⟩
      | some v₀ =>
          refine ⟨v₀ :: l, by simp [gatherVmInfo, hr, hl], fun v => ?_⟩
          simp only [List.mem_cons]
          constructor
          · rintro (rfl | hv)
            · exact ⟨o, Or.inl rfl, hr⟩
            · obtain ⟨o', ho', hq⟩ := (hmem v).mp hv
              exact ⟨o', Or.inr ho', hq⟩
          · rintro ⟨o', ho', hq⟩
            rcases ho' with rfl | ho'
            · left
              rw [hr] at hq
              injection hq with h'
              injection h' with h''
              exact h''.symm
            · right
              exact (hmem v).mpr ⟨o', ho', hq⟩

/-- C9 (amended): when every reply is well shaped — errors, timeouts and
syntactically invalid JSON are allowed, and every JSON-object reply with
`error_code` 0 carries the `index` and `name` keys — the poller raises no
exception and returns a snapshot containing exactly the workers whose
queries produced an entry, i.e. whose reply was an object with a zero
error code (failed or nonzero-code queries are silently excluded,
main.py lines 182-228).  Replies that are non-object JSON, or objects with
`error_code` 0 lacking those keys, instead raise an uncaught exception out
of the poller (see `poller_cex`). -/
theorem poller_snapshot (outs : List QueryOutcome)
    (h : ∀ o ∈ outs, queryWellFormed o = true) :
    ∃ l, get_vm_info outs = Except.ok l
      ∧ ∀ v, v ∈ l ↔ ∃ o ∈ outs, query_vm o = Except.ok (some v) := by
  obtain ⟨l, hl, hmem⟩ := gatherVmInfo_ok outs h
  refine ⟨l.insertionSort fun a b => a.index ≤ b.index, ?_, fun v => ?_⟩
  · simp [get_vm_info, hl]
  · rw [(List.perm_insertionSort _ l).mem_iff]
    exact hmem v

/-- A well-shaped successful reply for worker 1. -/
def goodDoc : VmDoc :=
  { error_code := some 0, index := some 1, name := some "ROM_A", is_main := some false,
    is_android_started := some true, is_process_started := some true,
    launch_err_code := some 0, launch_err_msg := some "" }

/-- A reply with a nonzero error code (worker absent). -/
def absentDoc : VmDoc :=
  { error_code := some 500, index := none, name := none, is_main := none,
    is_android_started := none, is_process_started := none,
    launch_err_code := none, launch_err_msg := none }

/-- A mixed outcome list: one process error, one good reply, one timeout,
one nonzero-error-code reply, one JSON decode error. -/
def demoOuts : List QueryOutcome :=
  [QueryOutcome.procError, QueryOutcome.doc goodDoc, QueryOutcome.timeout,
   QueryOutcome.doc absentDoc, QueryOutcome.badJson]

/-- Witness for `poller_snapshot` on `demoOuts`. -/
theorem poller_snapshot_witness :
    (∀ o ∈ demoOuts, queryWellFormed o = true)
  ∧ (∃ l, get_vm_info demoOuts = Except.ok l
      ∧ ∀ v, v ∈ l ↔ ∃ o ∈ demoOuts, query_vm o = Except.ok (some v)) :=
  ⟨by decide, poller_snapshot demoOuts (by decide)⟩

/-- A `min`-fold is bounded by its seed. -/
theorem foldl_min_le_init (xs : List Nat) (a : Nat) : xs.foldl min a ≤ a := by
  induction xs generalizing a with
  | nil => exact Nat.le_refl a
  | cons x xs ih => exact Nat.le_trans (ih (min a x)) (min_le_left a x)

/-- A `min`-fold is bounded by every list member. -/
theorem foldl_min_le_mem (xs : List Nat) : ∀ a x, x ∈ xs → xs.foldl min a ≤ x := by
  induction xs with
  | nil =>
      intro a x hx
      cases hx
  | cons y ys ih =>
      intro a x hx
      rcases List.mem_cons.mp hx with rfl | h
      · exact Nat.le_trans (foldl_min_le_init ys (min a x)) (min_le_right a x)
      · exact ih (min a y) x h

/-- A `min`-fold returns its seed or a list member. -/
theorem foldl_min_choice (xs : List Nat) :
    ∀ a, xs.foldl min a = a ∨ xs.foldl min a ∈ xs := by
  induction xs with
  | nil =>
      intro a
      exact Or.inl rfl
  | cons y ys ih =>
      intro a
      rcases ih (min a y) with h | h
      · rcases Nat.le_total a y with hay | hya
        · left
          show ys.foldl min (min a y) = a
          rw [h, min_eq_left hay]
        · right
          show ys.foldl min (min a y) ∈ y :: ys
          rw [h, min_eq_right hya]
          exact List.mem_cons_self y ys
      · right
        exact List.mem_cons_of_mem y h

/-- A `max`-fold dominates its seed. -/
theorem foldl_max_init_le (xs : List Nat) (a : Nat) : a ≤ xs.foldl max a := by
  induction xs generalizing a with
  | nil => exact Nat.le_refl a
  | cons x xs ih => exact Nat.le_trans (le_max_left a x) (ih (max a x))

/-- A `max`-fold dominates every list member. -/
theorem foldl_max_mem_le (xs : List Nat) : ∀ a x, x ∈ xs → x ≤ xs.foldl max a := by
  induction xs with
  | nil =>
      intro a x hx
      cases hx
  | cons y ys ih =>
      intro a x hx
      rcases List.mem_cons.mp hx with rfl | h
      · exact Nat.le_trans (le_max_right a x) (foldl_max_init_le ys (max a x))
      · exact ih (max a y) x h

/-- A `max`-fold returns its seed or a list member. -/
theorem foldl_max_choice (xs : List Nat) :
    ∀ a, xs.foldl max a = a ∨ xs.foldl max a ∈ xs := by
  induction xs with
  | nil =>
      intro a
      exact Or.inl rfl
  | cons y ys ih =>
      intro a
      rcases ih (max a y) with h | h
      · rcases Nat.le_total y a with hya | hay
        · left
          show ys.foldl max (max a y) = a
          rw [h, max_eq_left hya]
        · right
          show ys.foldl max (max a y) ∈ y :: ys
          rw [h, max_eq_right hay]
          exact List.mem_cons_self y ys
      · right
        exact List.mem_cons_of_mem y h

/-- Python `min` of a list equals any member that bounds the list below. -/
theorem pyMin_eq (l : List Nat) (m : Nat) (hm : m ∈ l) (hlb : ∀ x ∈ l, m ≤ x) :
    pyMin l = m := by
  cases l with
  | nil => cases hm
  | cons x xs =>
      show xs.foldl min x = m
      apply Nat.le_antisymm
      · rcases List.mem_cons.mp hm with rfl | h
        · exact foldl_min_le_init xs m
        · exact foldl_min_le_mem xs x m h
      · rcases foldl_min_choice xs x with h | h
        · rw [h]
          exact hlb x (List.mem_cons_self x xs)
        · exact hlb _ (List.mem_cons_of_mem x h)

/-- Python `max` of a list equals any member that bounds the list above. -/
theorem pyMax_eq (l : List Nat) (m : Nat) (hm : m ∈ l) (hub : ∀ x ∈ l, x ≤ m) :
    pyMax l = m := by
  cases l with
  | nil => cases hm
  | cons x xs =>
      show xs.foldl max x = m
      apply Nat.le_antisymm
      · rcases foldl_max_choice xs x with h | h
        · rw [h]
          exact hub x (List.mem_cons_self x xs)
        · exact hub _ (List.mem_cons_of_mem x h)
      · rcases List.mem_cons.mp hm with rfl | h
        · exact foldl_max_init_le xs m
        · exact foldl_max_mem_le xs x m h

/-- Mapping each batch member back to its pool position (the
`active_vm_indices.index(idx)` lookups of main.py lines 1118-1119) recovers
the cursor-relative positions, because the pool has no duplicate indices. -/
theorem computeBatch_positions (pool : List Nat) (c b : Nat) (hnd : pool.Nodup)
    (hn : 0 < pool.length) :
    (computeBatch pool c b).map (fun idx => pool.indexOf idx)
      = (List.range b).map fun i => (c + i) % pool.length := by
  simp only [computeBatch, List.map_map]
  apply List.map_congr_left
  intro i _
  have hlt : (c + i) % pool.length < pool.length := Nat.mod_lt _ hn
  show pool.indexOf (pool.getD ((c + i) % pool.length) 0) = (c + i) % pool.length
  rw [List.getD_eq_getElem pool 0 hlt]
  exact List.indexOf_getElem hnd _ hlt

/-- C1 (amended): the range reported for a started batch is 1 plus the
minimum and 1 plus the maximum of the batch members' pool positions
(main.py lines 1118-1120).  When the batch does not wrap (`c + b ≤ n`) this
coincides with the spec's formula `(c+1, ((c+b-1) mod n)+1)`; when it wraps
(`n < c + b`) the reported range is `(1, n)`, not the spec's wrapped pair,
and the first ordinal never exceeds the second, so the `end < start` wrap
flag is never raised. -/
theorem reported_range_characterization (pool : List Nat) (c b : Nat)
    (hnd : pool.Nodup) (hc : c < pool.length) (hb : 0 < b) (hbn : b ≤ pool.length) :
    (c + b ≤ pool.length →
        reportedRange pool (computeBatch pool c b) = specRangeFormula pool.length c b)
  ∧ (pool.length < c + b →
        reportedRange pool (computeBatch pool c b) = (1, pool.length))
  ∧ (reportedRange pool (computeBatch pool c b)).1
      ≤ (reportedRange pool (computeBatch pool c b)).2 := by
  have hn : 0 < pool.length := by omega
  have hpos := computeBatch_positions pool c b hnd hn
  have hrr : reportedRange pool (computeBatch pool c b)
      = (pyMin ((List.range b).map fun i => (c + i) % pool.length) + 1,
         pyMax ((List.range b).map fun i => (c + i) % pool.length) + 1) := by
    rw [reportedRange, hpos]
  have main :
      (c + b ≤ pool.length →
        reportedRange pool (computeBatch pool c b) = specRangeFormula pool.length c b)
    ∧ (pool.length < c + b →
        reportedRange pool (computeBatch pool c b) = (1, pool.length)) := by
    constructor
    · intro hle
      have hmin : pyMin ((List.range b).map fun i => (c + i) % pool.length) = c := by
        apply pyMin_eq
        · exact List.mem_map.mpr ⟨0, List.mem_range.mpr hb,
            by rw [Nat.add_zero, Nat.mod_eq_of_lt hc]⟩
        · intro x hx
          obtain ⟨i, hi, rfl⟩ := List.mem_map.mp hx
          have hi' := List.mem_range.mp hi
          rw [Nat.mod_eq_of_lt (by omega)]
          omega
      have hmax : pyMax ((List.range b).map fun i => (c + i) % pool.length) = c + b - 1 := by
        apply pyMax_eq
        · refine List.mem_map.mpr ⟨b - 1, List.mem_range.mpr (by omega), ?_⟩
          rw [Nat.mod_eq_of_lt (by omega)]
          omega
        · intro x hx
          obtain ⟨i, hi, rfl⟩ := List.mem_map.mp hx
          have hi' := List.mem_range.mp hi
          rw [Nat.mod_eq_of_lt (by omega)]
          omega
      rw [hrr, hmin, hmax, specRangeFormula, Nat.mod_eq_of_lt (by omega)]
    · intro hgt
      have hmin : pyMin ((List.range b).map fun i => (c + i) % pool.length) = 0 := by
        apply pyMin_eq
        · refine List.mem_map.mpr ⟨pool.length - c, List.mem_range.mpr (by omega), ?_⟩
          have e : c + (pool.length - c) = pool.length := by omega
          rw [e, Nat.mod_self]
        · intro x _
          exact Nat.zero_le x
      have hmax : pyMax ((List.range b).map fun i => (c + i) % pool.length)
          = pool.length - 1 := by
        apply pyMax_eq
        · refine List.mem_map.mpr ⟨pool.length - 1 - c, List.mem_range.mpr (by omega), ?_⟩
          have e : c + (pool.length - 1 - c) = pool.length - 1 := by omega
          rw [e, Nat.mod_eq_of_lt (by omega)]
        · intro x hx
          obtain ⟨i, hi, rfl⟩ := List.mem_map.mp hx
          have := Nat.mod_lt (c + i) hn
          omega
      rw [hrr, hmin, hmax]
      have e1 : pool.length - 1 + 1 = pool.length := by omega
      rw [e1]
  refine ⟨main.1, main.2, ?_⟩
  rcases Nat.le_total (c + b) pool.length with hle | hge
  · rw [main.1 hle]
    simp only [specRangeFormula]
    have : (c + b - 1) % pool.length = c + b - 1 := Nat.mod_eq_of_lt (by omega)
    omega
  · rcases Nat.lt_or_ge pool.length (c + b) with hgt | hge'
    · rw [main.2 hgt]
      omega
    · rw [main.1 (by omega)]
      simp only [specRangeFormula]
      have : (c + b - 1) % pool.length = c + b - 1 := Nat.mod_eq_of_lt (by omega)
      omega

/-- C1 counterexample: pool `[10, 11, 12, 13, 14]` (size 5), cursor 3,
batch size 3.  The claim's general formula evaluates to `(4, 1)` here, its
concrete example says `(4, 2)` — the two already disagree with each other —
and the code (min/max of the positions, main.py lines 1118-1120) reports
`(1, 5)`, matching neither; since the first component never exceeds the
second, the `end < start` wrap condition is never flagged. -/
theorem reported_range_spec_cex :
    reportedRange [10, 11, 12, 13, 14] (computeBatch [10, 11, 12, 13, 14] 3 3) = (1, 5)
  ∧ specRangeFormula 5 3 3 = (4, 1)
  ∧ reportedRange [10, 11, 12, 13, 14] (computeBatch [10, 11, 12, 13, 14] 3 3)
      ≠ specRangeFormula 5 3 3
  ∧ reportedRange [10, 11, 12, 13, 14] (computeBatch [10, 11, 12, 13, 14] 3 3) ≠ (4, 2) :=
  ⟨by decide, by decide, by decide, by decide⟩

/-- Witness for `reported_range_characterization` at the spec's own
example: pool `[10, 11, 12, 13, 14]`, cursor 3, batch size 3 (a wrapping
batch). -/
theorem reported_range_witness :
    List.Nodup [10, 11, 12, 13, 14]
  ∧ 3 < List.length [10, 11, 12, 13, 14]
  ∧ 0 < 3
  ∧ 3 ≤ List.length [10, 11, 12, 13, 14]
  ∧ ((3 + 3 ≤ List.length [10, 11, 12, 13, 14] →
        reportedRange [10, 11, 12, 13, 14] (computeBatch [10, 11, 12, 13, 14] 3 3)
          = specRangeFormula (List.length [10, 11, 12, 13, 14]) 3 3)
    ∧ (List.length [10, 11, 12, 13, 14] < 3 + 3 →
        reportedRange [10, 11, 12, 13, 14] (computeBatch [10, 11, 12, 13, 14] 3 3)
          = (1, List.length [10, 11, 12, 13, 14]))
    ∧ (reportedRange [10, 11, 12, 13, 14] (computeBatch [10, 11, 12, 13, 14] 3 3)).1
        ≤ (reportedRange [10, 11, 12, 13, 14] (computeBatch [10, 11, 12, 13, 14] 3 3)).2) :=
  ⟨by decide, by decide, by decide, by decide,
    reported_range_characterization [10, 11, 12, 13, 14] 3 3 (by decide) (by decide)
      (by decide) (by decide)⟩

end Mumu
